import Mathlib

/-!
Verification development for the `dentech-floss/logging` repository.

Go strings are modelled as `List Char` (the repository only manipulates
ASCII data in the verified paths).  Each definition below is a direct
translation of a function of the repository; the Go source location is
given in the doc comment.
-/

/-- Go strings, modelled as lists of characters. -/
abbrev Str := List Char

/-! ## Basic string helpers (strings.Split / strings.Join / strings.Contains) -/

/-- Length of the leading run of characters satisfying `p` (the extent a
greedy character-class quantifier can consume at this position). -/
def runLen (p : Char → Bool) : Str → Nat
  | [] => 0
  | c :: rest => if p c then runLen p rest + 1 else 0

/-- `strings.Split(s, sep)` for a one-character separator.  Always returns
a non-empty list of parts. -/
def splitOnChar (sep : Char) : Str → List Str
  | [] => [[]]
  | c :: rest =>
    match splitOnChar sep rest with
    | [] => [[]]
    | l :: ls => if c = sep then [] :: l :: ls else (c :: l) :: ls

/-- `strings.Join(parts, sep)` for a one-character separator. -/
def joinChar (sep : Char) : List Str → Str
  | [] => []
  | [l] => l
  | l :: ls => l ++ sep :: joinChar sep ls

/-- Does `pat` occur as a prefix of `s`? (helper for `strings.Contains`). -/
def hasPrefixL : Str → Str → Bool
  | _, [] => true
  | [], _ :: _ => false
  | c :: rest, p :: ps => c = p && hasPrefixL rest ps

/-- `strings.Contains(s, pat)`: does `pat` occur as a substring of `s`? -/
def containsL : Str → Str → Bool
  | s, pat =>
    hasPrefixL s pat ||
      match s with
      | [] => false
      | _ :: rest => containsL rest pat

theorem splitOnChar_ne_nil (sep : Char) (s : Str) : splitOnChar sep s ≠ [] := by
  cases s with
  | nil => simp [splitOnChar]
  | cons c rest =>
    simp only [splitOnChar]
    cases h : splitOnChar sep rest with
    | nil => simp
    | cons l ls =>
      by_cases hc : c = sep <;> simp [hc]

theorem joinChar_splitOnChar (sep : Char) (s : Str) :
    joinChar sep (splitOnChar sep s) = s := by
  induction s with
  | nil => simp [splitOnChar, joinChar]
  | cons c rest ih =>
    simp only [splitOnChar]
    cases h : splitOnChar sep rest with
    | nil => exact absurd h (splitOnChar_ne_nil sep rest)
    | cons l ls =>
      rw [h] at ih
      by_cases hc : c = sep
      · subst hc
        simp only [if_pos rfl, joinChar]
        cases ls with
        | nil => simpa [joinChar] using ih
        | cons l2 ls2 => simpa [joinChar] using ih
      · simp only [if_neg hc]
        cases ls with
        | nil => simpa [joinChar] using ih
        | cons l2 ls2 => simpa [joinChar] using ih

/-! ## Stack-trace trimming (src/pkg/logging/logger.go, `trimStack`) -/

/-- The fixed list of noisy-frame prefixes
(src/pkg/logging/logger.go, `stackSkipPrefixes`). -/
def stackSkipPrefixes : List Str :=
  ["runtime/debug.".data, "log/slog.".data,
   "github.com/dentech-floss/logging/pkg/logging.".data]

/-- Is a package line noisy, i.e. does it contain one of the skip prefixes? -/
def noisyLine (line : Str) : Bool :=
  stackSkipPrefixes.any (fun p => containsL line p)

/-- The `for i := 1; i < len(lines)-1; i += 2` loop of `trimStack`,
returning the final `startLine`.  The loop runs at most `lines.length`
iterations, so it is given that much fuel; fuel `0` returns the loop's
initial value `1` and is never reached for the fuel `trimStack` supplies. -/
def trimStartLineFuel : Nat → List Str → Nat → Nat
  | 0, _, _ => 1
  | fuel + 1, lines, i =>
    if i < lines.length - 1 then
      if noisyLine (lines.getD i []) then trimStartLineFuel fuel lines (i + 2)
      else i
    else 1

/-- `trimStack` (src/pkg/logging/logger.go lines 385-414): splits the trace
on newlines, skips leading noisy frames (pairs of lines), and returns the
header line plus the remaining lines; if every frame is noisy the loop
leaves `startLine` at 1 and the whole trace is returned. -/
def trimStack (s : Str) : Str :=
  let lines := splitOnChar '\n' s
  if lines.length ≤ 1 then s
  else
    let startLine := trimStartLineFuel lines.length lines 1
    lines.headD [] ++ '\n' :: joinChar '\n' (lines.drop startLine)

/-- The predicate "every frame line scanned by the loop is noisy",
written as the same loop shape as `trimStartLineFuel`. -/
def allNoisyFromFuel : Nat → List Str → Nat → Bool
  | 0, _, _ => true
  | fuel + 1, lines, i =>
    if i < lines.length - 1 then
      noisyLine (lines.getD i []) && allNoisyFromFuel fuel lines (i + 2)
    else true

/-- Every frame of the stack trace matches a noisy prefix. -/
def allFramesNoisy (s : Str) : Bool :=
  let lines := splitOnChar '\n' s
  allNoisyFromFuel lines.length lines 1

theorem trimStartLineFuel_of_allNoisy (fuel : Nat) (lines : List Str) (i : Nat)
    (h : allNoisyFromFuel fuel lines i = true) :
    trimStartLineFuel fuel lines i = 1 := by
  induction fuel generalizing i with
  | zero => simp [trimStartLineFuel]
  | succ fuel ih =>
    simp only [allNoisyFromFuel] at h
    simp only [trimStartLineFuel]
    by_cases hi : i < lines.length - 1
    · simp only [if_pos hi] at h ⊢
      obtain ⟨h1, h2⟩ := (Bool.and_eq_true _ _).mp h
      rw [h1]
      simpa using ih _ h2
    · simp [if_neg hi]

theorem trimStack_of_allFramesNoisy (s : Str) (h : allFramesNoisy s = true) :
    trimStack s = s := by
  unfold trimStack
  unfold allFramesNoisy at h
  by_cases hlen : (splitOnChar '\n' s).length ≤ 1
  · simp [hlen]
  · simp only [if_neg hlen]
    rw [trimStartLineFuel_of_allNoisy _ _ _ h]
    have hjoin := joinChar_splitOnChar '\n' s
    cases hsplit : splitOnChar '\n' s with
    | nil => exact absurd hsplit (splitOnChar_ne_nil '\n' s)
    | cons l ls =>
      rw [hsplit] at hjoin hlen
      cases ls with
      | nil => simp at hlen
      | cons l2 ls2 =>
        simp only [List.headD_cons, List.drop_succ_cons, List.drop_zero]
        rw [← hjoin]
        simp [joinChar]

/-! ## Attribute model (`log/slog` attrs as used by src/pkg/logging/logger.go) -/

/-- Attribute values.  Only the value kinds the repository constructs are
modelled: strings, 64-bit integers (`slog.Int`/`slog.Int64`), booleans,
levels, durations (nanoseconds), groups of string pairs (`Label`), opaque
`slog.Any` payloads (errors, HTTP headers) represented by their rendering,
and OpenTelemetry span IDs (`slog.Any(key, s.SpanID())`). -/
inductive Value where
  | str (s : Str)
  | int (i : Int)
  | bool (b : Bool)
  | level (l : Int)
  | dur (d : Nat)
  | group (pairs : List (Str × Str))
  | anyStr (s : Str)
  | spanId (bytes : List Nat)
deriving DecidableEq, Repr

/-- A `slog.Attr`: key paired with a value. -/
abbrev Attr := Str × Value

/-- slog severity levels used by the repository
(src/pkg/logging/logger.go lines 50-69). -/
def DebugLevel : Int := -4
def InfoLevel : Int := 0
def WarnLevel : Int := 4
def ErrorLevel : Int := 8
def DPanicLevel : Int := 9
def PanicLevel : Int := 16
def FatalLevel : Int := 32

/-! ## Span contexts (go.opentelemetry.io/otel/trace, as consumed by the code) -/

/-- An OpenTelemetry span context: 16 trace-ID bytes, 8 span-ID bytes and
the trace flags byte. -/
structure SpanContext where
  traceID : List Nat
  spanID : List Nat
  traceFlags : Nat
deriving DecidableEq, Repr

/-- `SpanContext.IsValid`: both the trace ID and the span ID have some
non-zero byte. -/
def SpanContext.isValid (s : SpanContext) : Bool :=
  s.traceID.any (fun b => b != 0) && s.spanID.any (fun b => b != 0)

/-- `TraceFlags.IsSampled`: the sampled bit (0x1) of the flags byte. -/
def SpanContext.sampled (s : SpanContext) : Bool :=
  s.traceFlags % 2 == 1

/-- One lowercase hex digit. -/
def hexDigit (n : Nat) : Char :=
  if n < 10 then Char.ofNat (48 + n) else Char.ofNat (87 + n)

/-- Lowercase hex rendering of a byte sequence; this is how `TraceID` and
`SpanID` print under `%s`. -/
def hexBytes : List Nat → Str
  | [] => []
  | b :: rest => hexDigit (b / 16) :: hexDigit (b % 16) :: hexBytes rest

/-- The all-zero (invalid) span context returned by
`trace.SpanContextFromContext` when the context carries none. -/
def zeroSpanContext : SpanContext :=
  ⟨List.replicate 16 0, List.replicate 8 0, 0⟩

/-! ## Context model (`context.Context` values used by the package) -/

/-- The context entries the package reads or writes: the ambient logger
fields (`loggerFieldsContextKey`), the bound logger (`loggerContextKey`,
loggers identified by a number), and the OpenTelemetry span context. -/
inductive CtxEntry where
  | loggerFields (attrs : List Attr)
  | logger (id : Nat)
  | spanCtx (s : SpanContext)
deriving DecidableEq

/-- A context is its chain of `context.WithValue` entries, innermost
(most recently attached) first; `WithValue` is cons and lookups take the
first entry for their key. -/
abbrev Ctx := List CtxEntry

/-- `ctx.Value(loggerFieldsContextKey{})`. -/
def ctxValueLoggerFields : Ctx → Option (List Attr)
  | [] => none
  | .loggerFields attrs :: _ => some attrs
  | _ :: rest => ctxValueLoggerFields rest

/-- `ctx.Value(loggerContextKey{})`. -/
def ctxValueLogger : Ctx → Option Nat
  | [] => none
  | .logger id :: _ => some id
  | _ :: rest => ctxValueLogger rest

/-- First span context attached to the chain, if any. -/
def ctxValueSpan : Ctx → Option SpanContext
  | [] => none
  | .spanCtx s :: _ => some s
  | _ :: rest => ctxValueSpan rest

/-- `ContextWithLoggerFields` (src/pkg/logging/logger.go lines 326-335):
derives a context with the attribute list stored under
`loggerFieldsContextKey`. -/
def contextWithLoggerFields (ctx : Ctx) (attrs : List Attr) : Ctx :=
  .loggerFields attrs :: ctx

/-- `LoggerFieldsFromContext` (src/pkg/logging/logger.go lines 337-345):
the stored attribute list, or the empty list when the context carries
none. -/
def loggerFieldsFromContext (ctx : Ctx) : List Attr :=
  match ctxValueLoggerFields ctx with
  | some v => v
  | none => []

/-- `ContextWithLogger` (src/pkg/logging/logger.go lines 123-125). -/
def contextWithLogger (ctx : Ctx) (id : Nat) : Ctx :=
  .logger id :: ctx

/-- `LoggerFromContext` (src/pkg/logging/logger.go lines 127-134): the
bound logger, or `none` (Go `nil`) when the context carries none. -/
def loggerFromContext (ctx : Ctx) : Option Nat :=
  ctxValueLogger ctx

/-- `trace.SpanContextFromContext`: the span context bound to the context,
or the zero (invalid) span context. -/
def spanContextFromContext (ctx : Ctx) : SpanContext :=
  match ctxValueSpan ctx with
  | some s => s
  | none => zeroSpanContext

/-! ## Log records and the span-context handler decorator -/

/-- A `slog.Record`: severity level, message and attribute sequence. -/
structure Record where
  level : Int
  message : Str
  attrs : List Attr
deriving DecidableEq

/-- `Record.AddAttrs`: appends attributes to the record. -/
def Record.addAttrs (r : Record) (as : List Attr) : Record :=
  { r with attrs := r.attrs ++ as }

/-- `spanContextLogHandler.Handle` (src/pkg/logging/logger.go lines
281-310): the record that the decorator passes on to the base handler.
`stack` stands for the `debug.Stack()` capture, an input of the run. -/
def spanContextLogHandlerHandle (projectID : Str) (stack : Str)
    (ctx : Ctx) (record : Record) : Record :=
  let attrs := loggerFieldsFromContext ctx
  let record := if attrs.length ≠ 0 then record.addAttrs attrs else record
  let record :=
    if record.level ≥ WarnLevel then
      record.addAttrs [("stacktrace".data, .str (trimStack stack))]
    else record
  let s := spanContextFromContext ctx
  if s.isValid then
    record.addAttrs
      [("logging.googleapis.com/trace".data,
        .str ("projects/".data ++ projectID ++ "/traces/".data ++ hexBytes s.traceID)),
       ("logging.googleapis.com/spanId".data, .spanId s.spanID),
       ("logging.googleapis.com/trace_sampled".data, .bool s.sampled)]
  else record

/-! ## Key remapping (src/pkg/logging/logger.go, `replacer`) -/

/-- `replacer` (src/pkg/logging/logger.go lines 347-377).  The level case
type-asserts `a.Value.Any().(slog.Level)`, which panics when the value is
not a level; the panic is modelled by `none`. -/
def replacer (groups : List Str) (a : Attr) : Option Attr :=
  if a.1 = "level".data then
    match a.2 with
    | .level l =>
      let v : Value :=
        if l = DebugLevel then .str "DEBUG".data
        else if l = InfoLevel then .str "INFO".data
        else if l = WarnLevel then .str "WARNING".data
        else if l = ErrorLevel ∨ l = DPanicLevel then .str "ERROR".data
        else if l = PanicLevel then .str "CRITICAL".data
        else if l = FatalLevel then .str "EMERGENCY".data
        else .level l
      some ("severity".data, v)
    | _ => none
  else if a.1 = "time".data then some ("timestamp".data, a.2)
  else if a.1 = "msg".data then some ("message".data, a.2)
  else if a.1 = "source".data then
    some ("logging.googleapis.com/sourceLocation".data, a.2)
  else some a

/-- Last-write-wins resolution of a key over an attribute sequence, the
way a JSON consumer resolves duplicate keys. -/
def lastVal (attrs : List Attr) (k : Str) : Option Value :=
  attrs.foldl (fun acc a => if a.1 = k then some a.2 else acc) none

/-! ## PII masking engine (src/unnamed/part_009) -/

/-- Go regexp `\d`. -/
def isDigitGo (c : Char) : Bool :=
  '0' ≤ c && c ≤ '9'

/-- Go regexp `\s` (the ASCII class `[\t\n\f\r ]`). -/
def isSpaceGo (c : Char) : Bool :=
  c = ' ' || c = '\t' || c = '\n' || c = '\x0c' || c = '\r'

/-- The phone pattern's character class `[\d\s-]`. -/
def isPhoneClass (c : Char) : Bool :=
  isDigitGo c || isSpaceGo c || c = '-'

/-- Go regexp word character (`\w`, for `\b` boundaries): `[0-9A-Za-z_]`. -/
def isWordChar (c : Char) : Bool :=
  isDigitGo c || ('A' ≤ c && c ≤ 'Z') || ('a' ≤ c && c ≤ 'z') || c = '_'

/-- Word-ness of the character before the current position (`none` at the
start of the text counts as non-word). -/
def optWord : Option Char → Bool
  | none => false
  | some c => isWordChar c

/-- `isDateLike` (src/unnamed/part_009 lines 96-101): anchored match of
`^\d{4}-\d{2}-\d{2}(T\d{2}:\d{2}:\d{2}Z)?$|^\d{8}$`. -/
def isDateLike (s : Str) : Bool :=
  (match s with
   | [a, b, c, d, '-', e, f, '-', g, h] =>
     [a, b, c, d, e, f, g, h].all isDigitGo
   | [a, b, c, d, '-', e, f, '-', g, h, 'T', i, j, ':', k, l, ':', m, n, 'Z'] =>
     [a, b, c, d, e, f, g, h, i, j, k, l, m, n].all isDigitGo
   | _ => false) ||
  (s.length = 8 && s.all isDigitGo)

/-- Separator stripping in `MaskPhone`:
`strings.ReplaceAll(strings.ReplaceAll(phone, " ", ""), "-", "")`. -/
def stripSeps (s : Str) : Str :=
  s.filter (fun c => c ≠ ' ' && c ≠ '-')

/-- The `strings.Map` step of `MaskPhone`: walks the original match,
keeping spaces and dashes in place and drawing every other character from
the masked digit string.  (Go would panic past the end of the masked
string; that is unreachable because the masked string has exactly one
character per non-separator character of the match.) -/
def mapReinsert : Str → Str → Str
  | [], _ => []
  | c :: rest, masked =>
    if c = ' ' || c = '-' then c :: mapReinsert rest masked
    else
      match masked with
      | [] => []
      | m :: ms => m :: mapReinsert rest ms

/-- The per-match replacement function of `MaskPhone`
(src/unnamed/part_009 lines 29-59). -/
def maskPhoneMatch (phone : Str) : Str :=
  let plainPhone := stripSeps phone
  if isDateLike plainPhone then phone
  else if plainPhone.length ≤ 8 then phone
  else
    let midLen := plainPhone.length - 6
    let maskedPhone :=
      plainPhone.take 3 ++ List.replicate midLen 'X' ++
        plainPhone.drop (plainPhone.length - 3)
    mapReinsert phone maskedPhone

/-- Leftmost-first match of `(\+46|0)[\d\s-]{9,12}` at the current
position: the alternation prefers `+46` (the two branches start with
different characters, so at most one applies), and the greedy counted
class takes up to 12 characters, needing at least 9.  Returns the total
match length. -/
def phoneMatchAt : Str → Option Nat
  | '+' :: '4' :: '6' :: rest =>
    let n := runLen isPhoneClass rest
    if n ≥ 9 then some (3 + min n 12) else none
  | '0' :: rest =>
    let n := runLen isPhoneClass rest
    if n ≥ 9 then some (1 + min n 12) else none
  | _ => none

/-- The `ReplaceAllStringFunc` scan of `MaskPhone`: find successive
non-overlapping leftmost matches and replace each through
`maskPhoneMatch`.  Fuel decreases by one per step while the text shrinks
by at least one character, so fuel `s.length` always suffices; fuel `0`
(unreachable) returns the rest unchanged. -/
def maskPhoneFuel : Nat → Str → Str
  | 0, s => s
  | _ + 1, [] => []
  | fuel + 1, c :: rest =>
    match phoneMatchAt (c :: rest) with
    | some k =>
      maskPhoneMatch ((c :: rest).take k) ++ maskPhoneFuel fuel ((c :: rest).drop k)
    | none => c :: maskPhoneFuel fuel rest

/-- `MaskPhone` (src/unnamed/part_009 lines 22-63). -/
def maskPhone (s : Str) : Str :=
  maskPhoneFuel s.length s

/-- A `\b\d{8}\d{4}\b` match begins at the current position: the previous
character is non-word, the next 12 characters are digits, and the
character after them (if any) is non-word. -/
def ssnMatchAt (prev : Option Char) (s : Str) : Bool :=
  !optWord prev && s.length ≥ 12 && (s.take 12).all isDigitGo &&
    (match s.drop 12 with
     | [] => true
     | c :: _ => !isWordChar c)

/-- The `ReplaceAllStringFunc` scan of `MaskSSN`: each match is replaced
by eight `X` plus its last four digits (src/unnamed/part_009 lines 8-20).
`prev` is the character of the original text before the current position
(`\b` is evaluated against the original text). -/
def maskSSNFuel : Nat → Option Char → Str → Str
  | 0, _, s => s
  | _ + 1, _, [] => []
  | fuel + 1, prev, c :: rest =>
    if ssnMatchAt prev (c :: rest) then
      let m := (c :: rest).take 12
      (List.replicate 8 'X' ++ m.drop 8) ++
        maskSSNFuel fuel (some (m.getLastD 'X')) ((c :: rest).drop 12)
    else c :: maskSSNFuel fuel (some c) rest

/-- `MaskSSN` (src/unnamed/part_009 lines 8-20). -/
def maskSSN (s : Str) : Str :=
  maskSSNFuel s.length none s

/-- The email pattern's local-part class `[A-Za-z0-9._%+-]`. -/
def isLocalClass (c : Char) : Bool :=
  isWordChar c || c = '.' || c = '%' || c = '+' || c = '-'

/-- The email pattern's domain class `[A-Za-z0-9.-]`. -/
def isDomainClass (c : Char) : Bool :=
  isDigitGo c || ('A' ≤ c && c ≤ 'Z') || ('a' ≤ c && c ≤ 'z') || c = '.' || c = '-'

/-- The email pattern's TLD class `[A-Z|a-z]` (it literally contains
`|`). -/
def isTldClass (c : Char) : Bool :=
  ('A' ≤ c && c ≤ 'Z') || c = '|' || ('a' ≤ c && c ≤ 'z')

/-- Greedy `[A-Z|a-z]{2,}` followed by `\b`: try the longest TLD length
first, then backtrack, but never below two characters.  `u` is the text
after the `\.`. -/
def tryTld (u : Str) : Nat → Option Nat
  | 0 => none
  | k + 1 =>
    if k + 1 < 2 then none
    else if optWord (u.get? k) != optWord (u.get? (k + 1)) then some (k + 1)
    else tryTld u k

/-- Greedy `[A-Za-z0-9.-]+\.` with backtracking: try the longest domain
length `d` first; the character after the domain part must be `.` and the
remainder must contain a TLD match.  Returns the pair (domain length, TLD
length).  `t` is the text after the `@`. -/
def tryDomain (t : Str) : Nat → Option (Nat × Nat)
  | 0 => none
  | d + 1 =>
    (match t.get? (d + 1) with
     | some '.' =>
       let u := t.drop (d + 2)
       match tryTld u (runLen isTldClass u) with
       | some k => some (d + 1, k)
       | none => tryDomain t d
     | _ => tryDomain t d)

/-- Leftmost-first match of
`\b[A-Za-z0-9._%+-]+@[A-Za-z0-9.-]+\.[A-Z|a-z]{2,}\b` at the current
position, returning the total match length.  The local part must be the
maximal class run (anything shorter is followed by a class character, not
`@`), preceded by a word boundary. -/
def emailMatchAt (prev : Option Char) (s : Str) : Option Nat :=
  let l := runLen isLocalClass s
  if l = 0 then none
  else if optWord prev = optWord (s.get? 0) then none
  else
    match s.get? l with
    | some '@' =>
      let t := s.drop (l + 1)
      match tryDomain t (runLen isDomainClass t) with
      | some (d, k) => some (l + 1 + d + 1 + k)
      | none => none
    | _ => none

/-- Masking of the local part (src/unnamed/part_009 lines 76-83). -/
def maskLocal (localPart : Str) : Str :=
  if localPart.length > 2 then
    localPart.take 1 ++ List.replicate (localPart.length - 2) 'X' ++
      localPart.drop (localPart.length - 1)
  else List.replicate localPart.length 'X'

/-- The per-match replacement function of `MaskEmail`: split on `@`,
mask the local part, keep the domain (src/unnamed/part_009 lines 71-84).
(A match always contains exactly one `@`; on any other input Go's
`parts[1]` would panic, modelled by returning the input.) -/
def maskEmailMatch (email : Str) : Str :=
  match splitOnChar '@' email with
  | loc :: domain :: _ => maskLocal loc ++ '@' :: domain
  | _ => email

/-- The `ReplaceAllStringFunc` scan of `MaskEmail`
(src/unnamed/part_009 lines 65-87). -/
def maskEmailFuel : Nat → Option Char → Str → Str
  | 0, _, s => s
  | _ + 1, _, [] => []
  | fuel + 1, prev, c :: rest =>
    match emailMatchAt prev (c :: rest) with
    | some k =>
      maskEmailMatch ((c :: rest).take k) ++
        maskEmailFuel fuel (some (((c :: rest).take k).getLastD c))
          ((c :: rest).drop k)
    | none => c :: maskEmailFuel fuel (some c) rest

/-- `MaskEmail` (src/unnamed/part_009 lines 65-87). -/
def maskEmail (s : Str) : Str :=
  maskEmailFuel s.length none s

/-! ## Pattern-occurrence predicates (for the identity-on-no-match facts) -/

/-- Some suffix of `s` begins a phone-pattern match. -/
def hasPhoneMatch (s : Str) : Bool :=
  s.tails.any (fun t => (phoneMatchAt t).isSome)

/-- Some position of `s` (with its preceding character) begins an SSN
match. -/
def hasSSNMatchAux : Option Char → Str → Bool
  | _, [] => false
  | prev, c :: rest => ssnMatchAt prev (c :: rest) || hasSSNMatchAux (some c) rest

/-- The SSN pattern matches somewhere in `s`. -/
def hasSSNMatch (s : Str) : Bool :=
  hasSSNMatchAux none s

/-- Some position of `s` (with its preceding character) begins an email
match. -/
def hasEmailMatchAux : Option Char → Str → Bool
  | _, [] => false
  | prev, c :: rest =>
    (emailMatchAt prev (c :: rest)).isSome || hasEmailMatchAux (some c) rest

/-- The email pattern matches somewhere in `s`. -/
def hasEmailMatch (s : Str) : Bool :=
  hasEmailMatchAux none s

/-! ## Logging HTTP transport (src/pkg/logging/http_transport.go) -/

/-- An `http.Response`, reduced to what the transport reads: the status
code, plus an opaque rendering of the headers. -/
structure Response where
  statusCode : Int
  headers : Str
deriving DecidableEq

/-- Outcome of the wrapped round-tripper: a response, or a transport
error (identified by its message). -/
inductive RTOutcome where
  | ok (resp : Response)
  | err (e : Str)
deriving DecidableEq

/-- One leveled log call made through a `*Logger`; `logger` identifies
which logger emitted it. -/
structure LogCall where
  logger : Nat
  level : Int
  message : Str
  fields : List Attr
deriving DecidableEq

/-- `Label` (src/pkg/logging/logger.go lines 438-443):
`slog.Group("logging.googleapis.com/labels", slog.String(key, value))`. -/
def LabelF (key value : Str) : Attr :=
  ("logging.googleapis.com/labels".data, .group [(key, value)])

/-- `String` (src/pkg/logging/logger.go lines 471-476). -/
def StringF (key value : Str) : Attr :=
  (key, .str value)

/-- `Int` (src/pkg/logging/logger.go lines 478-483). -/
def IntF (key : Str) (value : Int) : Attr :=
  (key, .int value)

/-- `Int64` (src/pkg/logging/logger.go lines 499-504). -/
def Int64F (key : Str) (value : Int) : Attr :=
  (key, .int value)

/-- `Any` (src/pkg/logging/logger.go lines 515-520), for opaque payloads
such as `http.Header`, represented by their rendering. -/
def AnyF (key payload : Str) : Attr :=
  (key, .anyStr payload)

/-- `Error` (src/pkg/logging/logger.go lines 530-532):
`slog.Any("error", err)`. -/
def ErrorF (e : Str) : Attr :=
  ("error".data, .anyStr e)

/-- `Duration` (src/pkg/logging/logger.go lines 534-536), duration in
nanoseconds. -/
def DurationF (key : Str) (d : Nat) : Attr :=
  (key, .dur d)

/-- `LoggingTransport.RoundTrip` (src/pkg/logging/http_transport.go lines
37-80).  Runtime inputs of the call are passed as parameters: the dumped
request (`dumpRequest(req)`), the request headers rendering, the elapsed
duration in nanoseconds, the wrapped round-tripper's outcome, and — used
only on success — the dumped response and response headers rendering.
`ctxLogger` is the logger bound to the request's context (`none` when the
context carries none); this RoundTrip never reads it and always emits
through the transport's configured logger `transportLogger`.  Returns the
emitted log calls and the `(resp, err)` pair. -/
def roundTrip (transportLogger : Nat) (ctxLogger : Option Nat)
    (url dumpedReq reqHeaders : Str) (duration : Nat) (outcome : RTOutcome)
    (dumpedResp respHeaders : Str) :
    List LogCall × (Option Response × Option Str) :=
  let loggerFields :=
    [LabelF "log_type".data "external_request".data,
     StringF "url".data url,
     StringF "request".data dumpedReq,
     AnyF "request_headers".data reqHeaders]
  let loggerFields := loggerFields ++
    [DurationF "duration".data duration,
     Int64F "duration_ms".data (Int.ofNat (duration / 1000000))]
  match outcome with
  | .err e =>
    ([⟨transportLogger, ErrorLevel, "call to external service FAILED".data,
       loggerFields ++ [ErrorF e]⟩],
     (none, some e))
  | .ok resp =>
    let loggerFields := loggerFields ++
      [StringF "response".data dumpedResp,
       IntF "status".data resp.statusCode,
       AnyF "response_headers".data respHeaders]
    ([⟨transportLogger, InfoLevel, "called external service".data,
       loggerFields⟩],
     (some resp, none))

/-- The variant `LoggingTransport.RoundTrip` of src/unnamed/part_004
(lines 37-86): resolves the logger from the request context first
(`log := LoggerFromContext(ctx); if log == nil { log = lt.l }`) and takes
the request/response dumps as configurable field-appending functions
(`none` models a nil options struct or nil function). -/
def roundTripV4 (transportLogger : Nat) (ctxLogger : Option Nat)
    (url : Str) (dumpReqF dumpRespF : Option (List Attr → List Attr))
    (duration : Nat) (outcome : RTOutcome) :
    List LogCall × (Option Response × Option Str) :=
  let log := match ctxLogger with
    | some l => l
    | none => transportLogger
  let loggerFields :=
    [LabelF "log_type".data "external_request".data,
     StringF "url".data url]
  let loggerFields := match dumpReqF with
    | some f => f loggerFields
    | none => loggerFields
  let loggerFields := loggerFields ++
    [DurationF "duration".data duration,
     Int64F "duration_ms".data (Int.ofNat (duration / 1000000))]
  match outcome with
  | .err e =>
    ([⟨log, ErrorLevel, "call to external service FAILED".data,
       loggerFields ++ [ErrorF e]⟩],
     (none, some e))
  | .ok resp =>
    let loggerFields := match dumpRespF with
      | some f => f loggerFields
      | none => loggerFields
    let loggerFields := loggerFields ++ [IntF "status".data resp.statusCode]
    ([⟨log, InfoLevel, "called external service".data, loggerFields⟩],
     (some resp, none))

/-! ## Theorems -/

theorem spanHandle_attrs (pid stack : Str) (ctx : Ctx) (r : Record) :
    (spanContextLogHandlerHandle pid stack ctx r).attrs =
      r.attrs ++ loggerFieldsFromContext ctx ++
      (if r.level ≥ WarnLevel then
        [("stacktrace".data, Value.str (trimStack stack))] else []) ++
      (if (spanContextFromContext ctx).isValid then
        [("logging.googleapis.com/trace".data,
          Value.str ("projects/".data ++ pid ++ "/traces/".data ++
            hexBytes (spanContextFromContext ctx).traceID)),
         ("logging.googleapis.com/spanId".data,
          Value.spanId (spanContextFromContext ctx).spanID),
         ("logging.googleapis.com/trace_sampled".data,
          Value.bool (spanContextFromContext ctx).sampled)]
       else []) := by
  unfold spanContextLogHandlerHandle
  rcases Decidable.em (loggerFieldsFromContext ctx = []) with hn | hn <;>
    rcases Decidable.em (WarnLevel ≤ r.level) with hw | hw <;>
      rcases Decidable.em ((spanContextFromContext ctx).isValid = true) with hv | hv <;>
        simp [Record.addAttrs, hn, hw, hv, List.append_assoc, ge_iff_le]

/-- C1: for every record handled with a context carrying a valid span
context, `Handle` attaches the trace attribute
`projects/<projectID>/traces/<traceID>`, the span ID and the sampled flag
under the reserved keys before delegating (the returned record is what the
base handler receives); with project `test-project` and trace ID bytes
01..10 the trace attribute is
`projects/test-project/traces/0102030405060708090a0b0c0d0e0f10`; when the
span context is invalid none of the three attributes is added. -/
theorem C1_span_context_attributes :
    (∀ (pid stack : Str) (ctx : Ctx) (r : Record),
      (spanContextFromContext ctx).isValid = true →
      (spanContextLogHandlerHandle pid stack ctx r).attrs =
        r.attrs ++ loggerFieldsFromContext ctx ++
        (if r.level ≥ WarnLevel then
          [("stacktrace".data, Value.str (trimStack stack))] else []) ++
        [("logging.googleapis.com/trace".data,
          Value.str ("projects/".data ++ pid ++ "/traces/".data ++
            hexBytes (spanContextFromContext ctx).traceID)),
         ("logging.googleapis.com/spanId".data,
          Value.spanId (spanContextFromContext ctx).spanID),
         ("logging.googleapis.com/trace_sampled".data,
          Value.bool (spanContextFromContext ctx).sampled)]) ∧
    (∀ (pid stack : Str) (ctx : Ctx) (r : Record),
      (spanContextFromContext ctx).isValid = false →
      (spanContextLogHandlerHandle pid stack ctx r).attrs =
        r.attrs ++ loggerFieldsFromContext ctx ++
        (if r.level ≥ WarnLevel then
          [("stacktrace".data, Value.str (trimStack stack))] else [])) ∧
    (("logging.googleapis.com/trace".data,
      Value.str "projects/test-project/traces/0102030405060708090a0b0c0d0e0f10".data) ∈
      (spanContextLogHandlerHandle "test-project".data []
        [CtxEntry.spanCtx ⟨[1, 2, 3, 4, 5, 6, 7, 8, 9, 10, 11, 12, 13, 14, 15, 16],
          [1, 2, 3, 4, 5, 6, 7, 8], 1⟩]
        ⟨InfoLevel, [], []⟩).attrs) := by
  refine ⟨?_, ?_, ?_⟩
  · intro pid stack ctx r hv
    rw [spanHandle_attrs, if_pos hv]
  · intro pid stack ctx r hv
    rw [spanHandle_attrs, hv]
    simp
  · decide

theorem C1_span_context_attributes_witness :
    (spanContextFromContext
      [CtxEntry.spanCtx ⟨[1, 2, 3, 4, 5, 6, 7, 8, 9, 10, 11, 12, 13, 14, 15, 16],
        [1, 2, 3, 4, 5, 6, 7, 8], 1⟩]).isValid = true ∧
    (spanContextLogHandlerHandle "test-project".data []
      [CtxEntry.spanCtx ⟨[1, 2, 3, 4, 5, 6, 7, 8, 9, 10, 11, 12, 13, 14, 15, 16],
        [1, 2, 3, 4, 5, 6, 7, 8], 1⟩]
      ⟨InfoLevel, [], []⟩).attrs =
      ([] : List Attr) ++
        loggerFieldsFromContext
          [CtxEntry.spanCtx ⟨[1, 2, 3, 4, 5, 6, 7, 8, 9, 10, 11, 12, 13, 14, 15, 16],
            [1, 2, 3, 4, 5, 6, 7, 8], 1⟩] ++
        (if (InfoLevel : Int) ≥ WarnLevel then
          [("stacktrace".data, Value.str (trimStack []))] else []) ++
        [("logging.googleapis.com/trace".data,
          Value.str ("projects/".data ++ "test-project".data ++ "/traces/".data ++
            hexBytes (spanContextFromContext
              [CtxEntry.spanCtx ⟨[1, 2, 3, 4, 5, 6, 7, 8, 9, 10, 11, 12, 13, 14, 15, 16],
                [1, 2, 3, 4, 5, 6, 7, 8], 1⟩]).traceID)),
         ("logging.googleapis.com/spanId".data,
          Value.spanId (spanContextFromContext
            [CtxEntry.spanCtx ⟨[1, 2, 3, 4, 5, 6, 7, 8, 9, 10, 11, 12, 13, 14, 15, 16],
              [1, 2, 3, 4, 5, 6, 7, 8], 1⟩]).spanID),
         ("logging.googleapis.com/trace_sampled".data,
          Value.bool (spanContextFromContext
            [CtxEntry.spanCtx ⟨[1, 2, 3, 4, 5, 6, 7, 8, 9, 10, 11, 12, 13, 14, 15, 16],
              [1, 2, 3, 4, 5, 6, 7, 8], 1⟩]).sampled)] :=
  ⟨by decide, C1_span_context_attributes.1 "test-project".data [] _ _ (by decide)⟩

/-- C3 counterexample: with ambient attribute `k=ambient` on the context
and call-site attribute `k=callsite` already on the record, `Handle`
appends the ambient attribute after the call-site one, so under
last-write-wins the ambient value — not the call-site value — wins,
contradicting the claimed merge order. -/
theorem C3_counterexample :
    lastVal (spanContextLogHandlerHandle [] []
        (contextWithLoggerFields [] [("k".data, Value.str "ambient".data)])
        ⟨InfoLevel, [], [("k".data, Value.str "callsite".data)]⟩).attrs "k".data =
      some (Value.str "ambient".data) ∧
    Value.str "ambient".data ≠ Value.str "callsite".data := by
  decide

/-- C3 (amended): the ambient attributes are merged into the record after
the call-site attributes (the record already carries the call-site
attributes when `Handle` runs), so under last-write-wins an ambient
attribute overrides a call-site attribute sharing its key, as the
concrete instance shows. -/
theorem C3_merge_order :
    (∀ (pid stack : Str) (ctx : Ctx) (r : Record),
      (spanContextLogHandlerHandle pid stack ctx r).attrs =
        r.attrs ++ loggerFieldsFromContext ctx ++
        (if r.level ≥ WarnLevel then
          [("stacktrace".data, Value.str (trimStack stack))] else []) ++
        (if (spanContextFromContext ctx).isValid then
          [("logging.googleapis.com/trace".data,
            Value.str ("projects/".data ++ pid ++ "/traces/".data ++
              hexBytes (spanContextFromContext ctx).traceID)),
           ("logging.googleapis.com/spanId".data,
            Value.spanId (spanContextFromContext ctx).spanID),
           ("logging.googleapis.com/trace_sampled".data,
            Value.bool (spanContextFromContext ctx).sampled)]
         else [])) ∧
    lastVal (spanContextLogHandlerHandle [] []
        (contextWithLoggerFields [] [("k".data, Value.str "ambient".data)])
        ⟨InfoLevel, [], [("k".data, Value.str "callsite".data)]⟩).attrs "k".data =
      some (Value.str "ambient".data) :=
  ⟨fun pid stack ctx r => spanHandle_attrs pid stack ctx r, by decide⟩

/-- C4: records at severity Warn or above get a `stacktrace` string
attribute holding the trimmed current stack; records below Warn get none;
and a trace whose every frame matches a noisy prefix is returned by
`trimStack` in full, never empty. -/
theorem C4_stacktrace :
    (∀ (pid stack : Str) (ctx : Ctx) (r : Record), r.level ≥ WarnLevel →
      (spanContextLogHandlerHandle pid stack ctx r).attrs =
        r.attrs ++ loggerFieldsFromContext ctx ++
        [("stacktrace".data, Value.str (trimStack stack))] ++
        (if (spanContextFromContext ctx).isValid then
          [("logging.googleapis.com/trace".data,
            Value.str ("projects/".data ++ pid ++ "/traces/".data ++
              hexBytes (spanContextFromContext ctx).traceID)),
           ("logging.googleapis.com/spanId".data,
            Value.spanId (spanContextFromContext ctx).spanID),
           ("logging.googleapis.com/trace_sampled".data,
            Value.bool (spanContextFromContext ctx).sampled)]
         else [])) ∧
    (∀ (pid stack : Str) (ctx : Ctx) (r : Record), r.level < WarnLevel →
      (spanContextLogHandlerHandle pid stack ctx r).attrs =
        r.attrs ++ loggerFieldsFromContext ctx ++
        (if (spanContextFromContext ctx).isValid then
          [("logging.googleapis.com/trace".data,
            Value.str ("projects/".data ++ pid ++ "/traces/".data ++
              hexBytes (spanContextFromContext ctx).traceID)),
           ("logging.googleapis.com/spanId".data,
            Value.spanId (spanContextFromContext ctx).spanID),
           ("logging.googleapis.com/trace_sampled".data,
            Value.bool (spanContextFromContext ctx).sampled)]
         else [])) ∧
    (∀ s : Str, allFramesNoisy s = true → trimStack s = s) := by
  refine ⟨?_, ?_, ?_⟩
  · intro pid stack ctx r hw
    rw [spanHandle_attrs, if_pos hw]
  · intro pid stack ctx r hw
    rw [spanHandle_attrs, if_neg (not_le.mpr hw)]
    simp
  · exact trimStack_of_allFramesNoisy

theorem C4_stacktrace_witness :
    (spanContextLogHandlerHandle [] "hdr\nmain.f()\n\tmain.go:3\n".data []
        ⟨WarnLevel, [], []⟩).attrs =
      ([] : List Attr) ++ loggerFieldsFromContext [] ++
        [("stacktrace".data,
          Value.str (trimStack "hdr\nmain.f()\n\tmain.go:3\n".data))] ++
        (if (spanContextFromContext ([] : Ctx)).isValid then
          [("logging.googleapis.com/trace".data,
            Value.str ("projects/".data ++ [] ++ "/traces/".data ++
              hexBytes (spanContextFromContext ([] : Ctx)).traceID)),
           ("logging.googleapis.com/spanId".data,
            Value.spanId (spanContextFromContext ([] : Ctx)).spanID),
           ("logging.googleapis.com/trace_sampled".data,
            Value.bool (spanContextFromContext ([] : Ctx)).sampled)]
         else []) ∧
    (spanContextLogHandlerHandle [] "hdr\nmain.f()\n\tmain.go:3\n".data []
        ⟨InfoLevel, [], []⟩).attrs =
      ([] : List Attr) ++ loggerFieldsFromContext [] ++
        (if (spanContextFromContext ([] : Ctx)).isValid then
          [("logging.googleapis.com/trace".data,
            Value.str ("projects/".data ++ [] ++ "/traces/".data ++
              hexBytes (spanContextFromContext ([] : Ctx)).traceID)),
           ("logging.googleapis.com/spanId".data,
            Value.spanId (spanContextFromContext ([] : Ctx)).spanID),
           ("logging.googleapis.com/trace_sampled".data,
            Value.bool (spanContextFromContext ([] : Ctx)).sampled)]
         else []) ∧
    trimStack "goroutine 1 [running]:\nruntime/debug.Stack()\n\tstack.go:24\nlog/slog.log()\n\tlogger.go:10\n".data =
      "goroutine 1 [running]:\nruntime/debug.Stack()\n\tstack.go:24\nlog/slog.log()\n\tlogger.go:10\n".data :=
  ⟨C4_stacktrace.1 [] _ [] ⟨WarnLevel, [], []⟩ (by decide),
   C4_stacktrace.2.1 [] _ [] ⟨InfoLevel, [], []⟩ (by decide),
   C4_stacktrace.2.2 _ (by decide)⟩

/-- C2: `replacer` renames exactly the four reserved keys — `level` to
`severity` (rewriting the value Debug→DEBUG, Info→INFO, Warn→WARNING,
Error and DPanic→ERROR, Panic→CRITICAL, Fatal→EMERGENCY), `time` to
`timestamp`, `msg` to `message`, `source` to
`logging.googleapis.com/sourceLocation` — and returns every attribute
with any other key unchanged. -/
theorem C2_replacer_remapping :
    (∀ (g : List Str) (k : Str) (v : Value),
      k ≠ "level".data → k ≠ "time".data → k ≠ "msg".data → k ≠ "source".data →
      replacer g (k, v) = some (k, v)) ∧
    (∀ g, replacer g ("level".data, Value.level DebugLevel) =
      some ("severity".data, Value.str "DEBUG".data)) ∧
    (∀ g, replacer g ("level".data, Value.level InfoLevel) =
      some ("severity".data, Value.str "INFO".data)) ∧
    (∀ g, replacer g ("level".data, Value.level WarnLevel) =
      some ("severity".data, Value.str "WARNING".data)) ∧
    (∀ g, replacer g ("level".data, Value.level ErrorLevel) =
      some ("severity".data, Value.str "ERROR".data)) ∧
    (∀ g, replacer g ("level".data, Value.level DPanicLevel) =
      some ("severity".data, Value.str "ERROR".data)) ∧
    (∀ g, replacer g ("level".data, Value.level PanicLevel) =
      some ("severity".data, Value.str "CRITICAL".data)) ∧
    (∀ g, replacer g ("level".data, Value.level FatalLevel) =
      some ("severity".data, Value.str "EMERGENCY".data)) ∧
    (∀ g v, replacer g ("time".data, v) = some ("timestamp".data, v)) ∧
    (∀ g v, replacer g ("msg".data, v) = some ("message".data, v)) ∧
    (∀ g v, replacer g ("source".data, v) =
      some ("logging.googleapis.com/sourceLocation".data, v)) := by
  refine ⟨?_, fun g => rfl, fun g => rfl, fun g => rfl, fun g => rfl,
    fun g => rfl, fun g => rfl, fun g => rfl, fun g v => rfl, fun g v => rfl,
    fun g v => rfl⟩
  intro g k v h1 h2 h3 h4
  simp [replacer, h1, h2, h3, h4]

theorem C2_replacer_remapping_witness :
    replacer [] ("custom".data, Value.bool true) =
      some ("custom".data, Value.bool true) :=
  C2_replacer_remapping.1 [] "custom".data (Value.bool true)
    (by decide) (by decide) (by decide) (by decide)

/-- C10: attaching attribute set B with `ContextWithLoggerFields` to a
context already carrying A yields a context from which
`LoggerFieldsFromContext` returns exactly B (the later attachment shadows
the earlier set); the context carrying A still yields A (the parent is
never mutated); and a context with no fields attached yields the empty
sequence. -/
theorem C10_context_fields_shadowing :
    (∀ (ctx : Ctx) (A B : List Attr),
      loggerFieldsFromContext
        (contextWithLoggerFields (contextWithLoggerFields ctx A) B) = B) ∧
    (∀ (ctx : Ctx) (A : List Attr),
      loggerFieldsFromContext (contextWithLoggerFields ctx A) = A) ∧
    (∀ ctx : Ctx, ctxValueLoggerFields ctx = none →
      loggerFieldsFromContext ctx = []) := by
  refine ⟨fun ctx A B => rfl, fun ctx A => rfl, ?_⟩
  intro ctx h
  simp [loggerFieldsFromContext, h]

theorem C10_context_fields_shadowing_witness :
    loggerFieldsFromContext [CtxEntry.logger 7] = [] :=
  C10_context_fields_shadowing.2.2 [CtxEntry.logger 7] (by decide)

/-- C8: when the wrapped round-tripper fails, `RoundTrip` emits exactly
one Error-level record with message `call to external service FAILED`
carrying the error attribute and returns `(nil, err)`; when it succeeds,
it emits exactly one Info-level record with message
`called external service` carrying a `status` attribute equal to the
response status code and returns the response with a nil error. -/
theorem C8_roundtrip_outcomes :
    (∀ (tl : Nat) (cl : Option Nat) (url dreq rh : Str) (dur : Nat)
        (dresp rhh e : Str),
      ∃ c : LogCall,
        (roundTrip tl cl url dreq rh dur (.err e) dresp rhh).1 = [c] ∧
        c.level = ErrorLevel ∧
        c.message = "call to external service FAILED".data ∧
        ErrorF e ∈ c.fields ∧
        (roundTrip tl cl url dreq rh dur (.err e) dresp rhh).2 = (none, some e)) ∧
    (∀ (tl : Nat) (cl : Option Nat) (url dreq rh : Str) (dur : Nat)
        (dresp rhh : Str) (resp : Response),
      ∃ c : LogCall,
        (roundTrip tl cl url dreq rh dur (.ok resp) dresp rhh).1 = [c] ∧
        c.level = InfoLevel ∧
        c.message = "called external service".data ∧
        IntF "status".data resp.statusCode ∈ c.fields ∧
        (roundTrip tl cl url dreq rh dur (.ok resp) dresp rhh).2 =
          (some resp, none)) := by
  constructor
  · intro tl cl url dreq rh dur dresp rhh e
    refine ⟨_, rfl, rfl, rfl, ?_, rfl⟩
    simp [roundTrip, ErrorF]
  · intro tl cl url dreq rh dur dresp rhh resp
    refine ⟨_, rfl, rfl, rfl, ?_, rfl⟩
    simp [roundTrip, IntF]

/-- C9 counterexample: with logger 1 bound to the request context and
logger 0 configured on the transport, the `RoundTrip` of
src/pkg/logging/http_transport.go emits through logger 0, not the
context's logger 1. -/
theorem C9_counterexample :
    (roundTrip 0 (some 1) [] [] [] 0 (.ok ⟨200, []⟩) [] []).1.map
        LogCall.logger = [0] ∧ (0 : Nat) ≠ 1 := by
  decide

/-- C9 (amended): the `RoundTrip` of src/pkg/logging/http_transport.go
always emits through the transport's configured logger, ignoring any
logger bound to the request context; the context-preferential resolution
with fallback to the transport's logger is implemented by the variant
`RoundTrip` of src/unnamed/part_004. -/
theorem C9_logger_resolution :
    (∀ (tl : Nat) (cl : Option Nat) (url dreq rh : Str) (dur : Nat)
        (outcome : RTOutcome) (dresp rhh : Str),
      (roundTrip tl cl url dreq rh dur outcome dresp rhh).1.map
        LogCall.logger = [tl]) ∧
    (∀ (tl : Nat) (cl : Option Nat) (url : Str)
        (dumpReqF dumpRespF : Option (List Attr → List Attr)) (dur : Nat)
        (outcome : RTOutcome),
      (roundTripV4 tl cl url dumpReqF dumpRespF dur outcome).1.map
        LogCall.logger = [cl.getD tl]) := by
  constructor
  · intro tl cl url dreq rh dur outcome dresp rhh
    cases outcome <;> rfl
  · intro tl cl url dumpReqF dumpRespF dur outcome
    cases outcome <;> cases cl <;> rfl

theorem splitOnChar_of_not_mem (c : Char) (l : Str) (h : c ∉ l) :
    splitOnChar c l = [l] := by
  induction l with
  | nil => rfl
  | cons a rest ih =>
    have ha : ¬(a = c) := fun he => h (he ▸ List.mem_cons_self a rest)
    have hr : c ∉ rest := fun hm => h (List.mem_cons_of_mem _ hm)
    simp only [splitOnChar, ih hr]
    simp [ha]

theorem splitOnChar_append (c : Char) (l₁ l₂ : Str) (h : c ∉ l₁) :
    splitOnChar c (l₁ ++ c :: l₂) = l₁ :: splitOnChar c l₂ := by
  induction l₁ with
  | nil =>
    simp only [List.nil_append, splitOnChar]
    cases hs : splitOnChar c l₂ with
    | nil => exact absurd hs (splitOnChar_ne_nil c l₂)
    | cons l ls => simp
  | cons a rest ih =>
    have ha : ¬(a = c) := fun he => h (he ▸ List.mem_cons_self a rest)
    have hr : c ∉ rest := fun hm => h (List.mem_cons_of_mem _ hm)
    simp only [List.cons_append, splitOnChar, List.append_eq]
    rw [ih hr]
    simp [ha]

theorem maskEmailMatch_structure (loc dom : Str)
    (h1 : '@' ∉ loc) (h2 : '@' ∉ dom) :
    maskEmailMatch (loc ++ '@' :: dom) = maskLocal loc ++ '@' :: dom := by
  unfold maskEmailMatch
  rw [splitOnChar_append _ _ _ h1, splitOnChar_of_not_mem _ _ h2]

theorem maskPhone_of_no_match (s : Str) (h : hasPhoneMatch s = false) :
    maskPhone s = s := by
  unfold maskPhone
  induction s with
  | nil => rfl
  | cons c rest ih =>
    have hall := (List.any_eq_false).mp h
    have h2 : hasPhoneMatch rest = false := by
      rw [hasPhoneMatch, List.any_eq_false]
      intro t ht
      exact hall t (by
        rw [List.mem_tails] at ht ⊢
        exact ht.trans (List.suffix_cons c rest))
    cases hm : phoneMatchAt (c :: rest) with
    | some k =>
      exfalso
      have hx := hall (c :: rest) (by simp [List.mem_tails])
      rw [hm] at hx
      simp at hx
    | none =>
      show maskPhoneFuel (rest.length + 1) (c :: rest) = c :: rest
      simp only [maskPhoneFuel, hm]
      rw [ih h2]

theorem maskEmailFuel_no_match (s : Str) :
    ∀ prev : Option Char, hasEmailMatchAux prev s = false →
      maskEmailFuel s.length prev s = s := by
  induction s with
  | nil => intro prev h; rfl
  | cons c rest ih =>
    intro prev h
    cases hm : emailMatchAt prev (c :: rest) with
    | some k => rw [hasEmailMatchAux, hm] at h; simp at h
    | none =>
      rw [hasEmailMatchAux, hm] at h
      simp only [Option.isSome_none, Bool.false_or] at h
      show maskEmailFuel (rest.length + 1) prev (c :: rest) = c :: rest
      simp only [maskEmailFuel, hm]
      rw [ih (some c) h]

theorem maskSSNFuel_no_match (s : Str) :
    ∀ prev : Option Char, hasSSNMatchAux prev s = false →
      maskSSNFuel s.length prev s = s := by
  induction s with
  | nil => intro prev h; rfl
  | cons c rest ih =>
    intro prev h
    rw [hasSSNMatchAux, Bool.or_eq_false_iff] at h
    obtain ⟨h1, h2⟩ := h
    show maskSSNFuel (rest.length + 1) prev (c :: rest) = c :: rest
    simp only [maskSSNFuel, h1]
    rw [ih (some c) h2]
    simp

/-- C5: `MaskPhone` masks each matched sequence keeping the first 3 and
last 3 characters of the separator-stripped form visible, reinserting the
original separators in place; date-like and 8-or-fewer-digit matches stay
unmasked; and the five concrete examples of the spec hold. -/
theorem C5_mask_phone :
    (∀ p : Str, isDateLike (stripSeps p) = true → maskPhoneMatch p = p) ∧
    (∀ p : Str, (stripSeps p).length ≤ 8 → maskPhoneMatch p = p) ∧
    (∀ p : Str, isDateLike (stripSeps p) = false → 8 < (stripSeps p).length →
      maskPhoneMatch p =
        mapReinsert p ((stripSeps p).take 3 ++
          List.replicate ((stripSeps p).length - 6) 'X' ++
          (stripSeps p).drop ((stripSeps p).length - 3))) ∧
    maskPhone "+467338878654".data = "+46XXXXXXX654".data ∧
    maskPhone "07338878654".data = "073XXXXX654".data ∧
    maskPhone "1234".data = "1234".data ∧
    maskPhone "2020-01-01".data = "2020-01-01".data ∧
    maskPhone "+46 733 887 8654".data = "+46 XXX XXX 8654".data := by
  refine ⟨?_, ?_, ?_, by decide, by decide, by decide, by decide, by decide⟩
  · intro p h
    simp [maskPhoneMatch, h]
  · intro p h
    unfold maskPhoneMatch
    by_cases hd : isDateLike (stripSeps p)
    · simp [hd]
    · simp [hd, h]
  · intro p h1 h2
    unfold maskPhoneMatch
    simp [h1, not_le.mpr h2]

theorem C5_mask_phone_witness :
    maskPhoneMatch "2020 01 01".data = "2020 01 01".data ∧
    maskPhoneMatch "0733 887".data = "0733 887".data ∧
    maskPhoneMatch "0123456789".data =
      mapReinsert "0123456789".data
        ((stripSeps "0123456789".data).take 3 ++
          List.replicate ((stripSeps "0123456789".data).length - 6) 'X' ++
          (stripSeps "0123456789".data).drop
            ((stripSeps "0123456789".data).length - 3)) :=
  ⟨C5_mask_phone.1 "2020 01 01".data (by decide),
   C5_mask_phone.2.1 "0733 887".data (by decide),
   C5_mask_phone.2.2.1 "0123456789".data (by decide) (by decide)⟩

/-- C6: for every matched email token the local part keeps its first and
last character with the interior masked when it exceeds 2 characters and
is fully masked otherwise, the domain is never masked, and the two
concrete examples of the spec hold. -/
theorem C6_mask_email :
    (∀ loc dom : Str, '@' ∉ loc → '@' ∉ dom →
      maskEmailMatch (loc ++ '@' :: dom) = maskLocal loc ++ '@' :: dom) ∧
    (∀ loc : Str, 2 < loc.length →
      maskLocal loc = loc.take 1 ++ List.replicate (loc.length - 2) 'X' ++
        loc.drop (loc.length - 1)) ∧
    (∀ loc : Str, loc.length ≤ 2 →
      maskLocal loc = List.replicate loc.length 'X') ∧
    maskEmail "john.doe@example.com".data = "jXXXXXXe@example.com".data ∧
    maskEmail "jd@example.com".data = "XX@example.com".data := by
  refine ⟨maskEmailMatch_structure, ?_, ?_, by decide, by decide⟩
  · intro loc h
    rw [maskLocal, if_pos h]
  · intro loc h
    rw [maskLocal, if_neg (not_lt.mpr h)]

theorem C6_mask_email_witness :
    maskEmailMatch ("john.doe".data ++ '@' :: "example.com".data) =
      maskLocal "john.doe".data ++ '@' :: "example.com".data ∧
    maskLocal "john.doe".data =
      "john.doe".data.take 1 ++
        List.replicate ("john.doe".data.length - 2) 'X' ++
        "john.doe".data.drop ("john.doe".data.length - 1) ∧
    maskLocal "jd".data = List.replicate "jd".data.length 'X' :=
  ⟨C6_mask_email.1 "john.doe".data "example.com".data (by decide) (by decide),
   C6_mask_email.2.1 "john.doe".data (by decide),
   C6_mask_email.2.2.1 "jd".data (by decide)⟩

/-- Relation between an original character and the character the SSN
masker leaves at the same position: unchanged, or a digit replaced by
`X`. -/
def maskedChar (a b : Char) : Prop :=
  b = a ∨ (b = 'X' ∧ isDigitGo a = true)

theorem maskSSNFuel_fuel_eq :
    ∀ (f1 f2 : Nat) (prev : Option Char) (s : Str),
      s.length ≤ f1 → s.length ≤ f2 →
      maskSSNFuel f1 prev s = maskSSNFuel f2 prev s := by
  intro f1
  induction f1 with
  | zero =>
    intro f2 prev s h1 h2
    have hs : s = [] := List.length_eq_zero.mp (Nat.le_zero.mp h1)
    subst hs
    cases f2 <;> rfl
  | succ f1 ih =>
    intro f2 prev s h1 h2
    cases s with
    | nil => cases f2 <;> rfl
    | cons c rest =>
      cases f2 with
      | zero => simp at h2
      | succ f2 =>
        simp only [List.length_cons, Nat.succ_le_succ_iff] at h1 h2
        simp only [maskSSNFuel]
        by_cases hm : ssnMatchAt prev (c :: rest) = true
        · simp only [hm, if_true]
          rw [ih f2 _ _ (by simp [List.length_drop]; omega)
            (by simp [List.length_drop]; omega)]
        · simp only [Bool.not_eq_true] at hm
          simp only [hm, Bool.false_eq_true, if_false]
          rw [ih f2 _ _ h1 h2]

theorem digits_maskedChar :
    ∀ l : Str, l.all isDigitGo = true →
      List.Forall₂ maskedChar l (List.replicate l.length 'X') := by
  intro l
  induction l with
  | nil => intro _; exact List.Forall₂.nil
  | cons c rest ih =>
    intro h
    simp only [List.all_cons, Bool.and_eq_true] at h
    exact List.Forall₂.cons (Or.inr ⟨rfl, h.1⟩) (ih h.2)

theorem maskSSNFuel_forall₂ :
    ∀ (n : Nat) (s : Str) (prev : Option Char), s.length ≤ n →
      List.Forall₂ maskedChar s (maskSSNFuel s.length prev s) := by
  intro n
  induction n with
  | zero =>
    intro s prev h
    have hs : s = [] := List.length_eq_zero.mp (Nat.le_zero.mp h)
    subst hs
    exact List.Forall₂.nil
  | succ n ih =>
    intro s prev h
    cases s with
    | nil => exact List.Forall₂.nil
    | cons c rest =>
      simp only [List.length_cons, Nat.succ_le_succ_iff] at h
      show List.Forall₂ maskedChar (c :: rest)
        (maskSSNFuel (rest.length + 1) prev (c :: rest))
      simp only [maskSSNFuel]
      by_cases hm : ssnMatchAt prev (c :: rest) = true
      · simp only [hm, if_true]
        have hdig : ((c :: rest).take 12).all isDigitGo = true := by
          simp only [ssnMatchAt, Bool.and_eq_true] at hm
          exact hm.1.2
        have hlen12 : 12 ≤ rest.length + 1 := by
          have h12 : 12 ≤ (c :: rest).length := by
            simp only [ssnMatchAt, Bool.and_eq_true, decide_eq_true_eq] at hm
            exact hm.1.1.2
          simpa using h12
        have hmlen : ((c :: rest).take 12).length = 12 := by
          simp [List.length_take, List.length_cons]; omega
        rw [maskSSNFuel_fuel_eq rest.length ((c :: rest).drop 12).length _ _
          (by simp [List.length_drop, List.length_cons]) (le_refl _)]
        have hsplit : c :: rest = (c :: rest).take 12 ++ (c :: rest).drop 12 :=
          (List.take_append_drop 12 (c :: rest)).symm
        conv_lhs => rw [hsplit]
        apply List.rel_append
        · have htd : (c :: rest).take 12 =
              ((c :: rest).take 12).take 8 ++ ((c :: rest).take 12).drop 8 :=
            (List.take_append_drop 8 _).symm
          conv_lhs => rw [htd]
          apply List.rel_append
          · have h8 : (((c :: rest).take 12).take 8).length = 8 := by
              simp [List.length_take]; omega
            have hdig8 : (((c :: rest).take 12).take 8).all isDigitGo = true := by
              rw [List.all_eq_true] at hdig ⊢
              intro x hx
              exact hdig x (List.take_subset _ _ hx)
            have := digits_maskedChar _ hdig8
            rwa [h8] at this
          · exact List.forall₂_same.mpr (fun x _ => Or.inl rfl)
        · exact ih _ _ (by simp [List.length_drop, List.length_cons]; omega)
      · simp only [Bool.not_eq_true] at hm
        simp only [hm, Bool.false_eq_true, if_false]
        exact List.Forall₂.cons (Or.inl rfl) (ih rest (some c) h)

theorem maskedChar_wordChar {a b : Char} (h : maskedChar a b) :
    isWordChar b = isWordChar a := by
  rcases h with h | ⟨h1, h2⟩
  · rw [h]
  · subst h1
    have : isWordChar a = true := by
      simp only [isWordChar, Bool.or_eq_true]
      exact Or.inl (Or.inl (Or.inl h2))
    rw [this]; rfl

theorem maskedChar_digit {a b : Char} (h : maskedChar a b)
    (hd : isDigitGo b = true) : isDigitGo a = true := by
  rcases h with h | ⟨h1, h2⟩
  · rwa [h] at hd
  · exact h2

theorem forall₂_all_digit :
    ∀ {l₁ l₂ : Str}, List.Forall₂ maskedChar l₁ l₂ →
      l₂.all isDigitGo = true → l₁.all isDigitGo = true := by
  intro l₁ l₂ h
  induction h with
  | nil => intro _; rfl
  | cons hr _ ih =>
    intro hall
    simp only [List.all_cons, Bool.and_eq_true] at hall ⊢
    exact ⟨maskedChar_digit hr hall.1, ih hall.2⟩

theorem ssnMatchAt_transfer :
    ∀ (s t : Str) (prev : Option Char), List.Forall₂ maskedChar s t →
      ssnMatchAt prev t = true → ssnMatchAt prev s = true := by
  intro s t prev hf hm
  simp only [ssnMatchAt, Bool.and_eq_true, decide_eq_true_eq] at hm ⊢
  obtain ⟨⟨⟨hpw, hlen⟩, hdig⟩, hbnd⟩ := hm
  refine ⟨⟨⟨hpw, ?_⟩, ?_⟩, ?_⟩
  · rw [hf.length_eq]; exact hlen
  · exact forall₂_all_digit (List.forall₂_take 12 hf) hdig
  · have hd := List.forall₂_drop 12 hf
    revert hbnd
    generalize s.drop 12 = sd at hd ⊢
    generalize t.drop 12 = td at hd ⊢
    intro hbnd
    cases hd with
    | nil => rfl
    | cons hr htail =>
      rename_i a l₁ b l₂
      show (!isWordChar a) = true
      rw [← maskedChar_wordChar hr]
      exact hbnd

theorem ssnMatchAt_X_false (prev : Option Char) (tail : Str) :
    ssnMatchAt prev ('X' :: tail) = false := by
  simp only [ssnMatchAt]
  have h12 : (('X' :: tail).take 12).all isDigitGo = false := by
    rw [List.take_succ_cons, List.all_cons]
    simp [isDigitGo]
  rw [h12]
  simp

theorem ssnMatchAt_word_prev_false (p : Char) (s : Str)
    (hp : isWordChar p = true) : ssnMatchAt (some p) s = false := by
  simp only [ssnMatchAt, optWord, hp]
  rfl

theorem maskSSNFuel_X_walk :
    ∀ (j : Nat) (prev : Option Char) (tail : Str) (fuel : Nat),
      maskSSNFuel (j + 1 + fuel) prev (List.replicate (j + 1) 'X' ++ tail) =
        List.replicate (j + 1) 'X' ++ maskSSNFuel fuel (some 'X') tail := by
  intro j
  induction j with
  | zero =>
    intro prev tail fuel
    rw [Nat.add_comm 1 fuel]
    show maskSSNFuel (fuel + 1) prev ('X' :: tail) = 'X' :: maskSSNFuel fuel (some 'X') tail
    simp [maskSSNFuel, ssnMatchAt_X_false]
  | succ j ih =>
    intro prev tail fuel
    rw [Nat.succ_add]
    rw [List.replicate_succ, List.cons_append]
    show maskSSNFuel ((j + 1 + fuel) + 1) prev
        ('X' :: (List.replicate (j + 1) 'X' ++ tail)) = _
    simp only [maskSSNFuel, ssnMatchAt_X_false, Bool.false_eq_true, if_false]
    rw [ih]
    simp [List.replicate_succ]

theorem maskSSNFuel_word_walk :
    ∀ (ds : Str) (p : Char) (tail : Str) (fuel : Nat),
      isWordChar p = true → ds.all isWordChar = true →
      maskSSNFuel (ds.length + fuel) (some p) (ds ++ tail) =
        ds ++ maskSSNFuel fuel (some (ds.getLastD p)) tail := by
  intro ds
  induction ds with
  | nil => intro p tail fuel _ _; simp
  | cons c ds ih =>
    intro p tail fuel hp hall
    simp only [List.all_cons, Bool.and_eq_true] at hall
    rw [List.length_cons, Nat.succ_add, List.cons_append]
    show maskSSNFuel ((ds.length + fuel) + 1) (some p) (c :: (ds ++ tail)) = _
    simp only [maskSSNFuel, ssnMatchAt_word_prev_false p _ hp,
      Bool.false_eq_true, if_false]
    rw [ih c tail fuel hall.1 hall.2, List.getLastD_cons]
    simp [List.cons_append]

theorem getLastD_ne_nil (l : Str) (d₁ d₂ : Char) (h : l ≠ []) :
    l.getLastD d₁ = l.getLastD d₂ := by
  cases l with
  | nil => exact absurd rfl h
  | cons c t => rw [List.getLastD_cons, List.getLastD_cons]

theorem getLastD_drop_lt :
    ∀ (l : Str) (k : Nat) (d : Char), k < l.length →
      (l.drop k).getLastD d = l.getLastD d := by
  intro l
  induction l with
  | nil => intro k d h; simp at h
  | cons a t ih =>
    intro k d h
    cases k with
    | zero => rfl
    | succ k =>
      simp only [List.length_cons, Nat.succ_lt_succ_iff] at h
      rw [List.drop_succ_cons, List.getLastD_cons, ih k d h]
      have ht : t ≠ [] := by
        intro he; rw [he] at h; simp at h
      exact getLastD_ne_nil t d a ht

theorem digit_isWordChar {a : Char} (h : isDigitGo a = true) :
    isWordChar a = true := by
  simp only [isWordChar, Bool.or_eq_true]
  exact Or.inl (Or.inl (Or.inl h))

theorem maskSSNFuel_idem_aux :
    ∀ (n : Nat) (s : Str) (prev : Option Char), s.length ≤ n →
      maskSSNFuel (maskSSNFuel s.length prev s).length prev
        (maskSSNFuel s.length prev s) = maskSSNFuel s.length prev s := by
  intro n
  induction n with
  | zero =>
    intro s prev h
    have hs : s = [] := List.length_eq_zero.mp (Nat.le_zero.mp h)
    subst hs
    rfl
  | succ n ih =>
    intro s prev h
    cases s with
    | nil => rfl
    | cons c rest =>
      simp only [List.length_cons, Nat.succ_le_succ_iff] at h
      by_cases hm : ssnMatchAt prev (c :: rest) = true
      · -- match case: the output is X^8 ++ kept digits ++ masked rest
        have hdig : ((c :: rest).take 12).all isDigitGo = true := by
          simp only [ssnMatchAt, Bool.and_eq_true] at hm
          exact hm.1.2
        have hlen12 : 12 ≤ rest.length + 1 := by
          have h12 : 12 ≤ (c :: rest).length := by
            simp only [ssnMatchAt, Bool.and_eq_true, decide_eq_true_eq] at hm
            exact hm.1.1.2
          simpa using h12
        have hmlen : ((c :: rest).take 12).length = 12 := by
          simp [List.length_take, List.length_cons]; omega
        have hstep :
            maskSSNFuel (rest.length + 1) prev (c :: rest) =
              (List.replicate 8 'X' ++ ((c :: rest).take 12).drop 8) ++
                maskSSNFuel ((c :: rest).drop 12).length
                  (some (((c :: rest).take 12).getLastD 'X'))
                  ((c :: rest).drop 12) := by
          simp only [maskSSNFuel, hm, if_true]
          rw [maskSSNFuel_fuel_eq rest.length ((c :: rest).drop 12).length _ _
            (by simp [List.length_drop, List.length_cons]) (le_refl _)]
        show maskSSNFuel (maskSSNFuel (rest.length + 1) prev (c :: rest)).length
            prev (maskSSNFuel (rest.length + 1) prev (c :: rest)) =
          maskSSNFuel (rest.length + 1) prev (c :: rest)
        rw [hstep]
        set m := (c :: rest).take 12 with hmdef
        set d := (c :: rest).drop 12 with hddef
        set out' := maskSSNFuel d.length (some (m.getLastD 'X')) d with houtdef
        have hdl : d.length ≤ n := by
          rw [hddef]
          simp only [List.length_drop, List.length_cons]
          omega
        rw [List.append_assoc]
        have hlen_all :
            (List.replicate 8 'X' ++ (m.drop 8 ++ out')).length =
              7 + 1 + ((m.drop 8).length + out'.length) := by
          simp [List.length_append, List.length_replicate]
          omega
        rw [hlen_all]
        rw [show (List.replicate 8 'X' : Str) = List.replicate (7 + 1) 'X' from rfl]
        rw [maskSSNFuel_X_walk]
        have hdig8 : (m.drop 8).all isDigitGo = true := by
          rw [List.all_eq_true] at hdig ⊢
          intro x hx
          exact hdig x (List.drop_subset _ _ hx)
        have hword8 : (m.drop 8).all isWordChar = true := by
          rw [List.all_eq_true] at hdig8 ⊢
          intro x hx
          exact digit_isWordChar (hdig8 x hx)
        rw [maskSSNFuel_word_walk (m.drop 8) 'X' out' out'.length rfl hword8]
        rw [getLastD_drop_lt m 8 'X' (by omega)]
        have hrec := ih d (some (m.getLastD 'X')) hdl
        rw [← houtdef] at hrec
        rw [hrec]
      · simp only [Bool.not_eq_true] at hm
        have hstep : maskSSNFuel (rest.length + 1) prev (c :: rest) =
            c :: maskSSNFuel rest.length (some c) rest := by
          simp only [maskSSNFuel, hm, Bool.false_eq_true, if_false]
        show maskSSNFuel (maskSSNFuel (rest.length + 1) prev (c :: rest)).length
            prev (maskSSNFuel (rest.length + 1) prev (c :: rest)) =
          maskSSNFuel (rest.length + 1) prev (c :: rest)
        rw [hstep]
        set out' := maskSSNFuel rest.length (some c) rest with houtdef
        have hf2 : List.Forall₂ maskedChar (c :: rest) (c :: out') :=
          List.Forall₂.cons (Or.inl rfl)
            (maskSSNFuel_forall₂ rest.length rest (some c) (le_refl _))
        have hm2 : ssnMatchAt prev (c :: out') = false := by
          cases hval : ssnMatchAt prev (c :: out') with
          | false => rfl
          | true => exact absurd (ssnMatchAt_transfer _ _ _ hf2 hval) (by simp [hm])
        show maskSSNFuel (out'.length + 1) prev (c :: out') = c :: out'
        simp only [maskSSNFuel, hm2, Bool.false_eq_true, if_false]
        have hrec := ih rest (some c) h
        rw [← houtdef] at hrec
        rw [hrec]

/-- C7 counterexample: neither `MaskPhone` nor `MaskEmail` is idempotent.
For `MaskPhone`, on `01111111110111111111` the first pass greedily masks
a 13-character match and leaves seven trailing digits; the kept last
three digits `011` combine with them into a fresh match, so the second
pass masks again.  For `MaskEmail`, on `ab@-.cd5h@x.yz` the first pass
fails to match at position 0 (the TLD run `cd` is blocked by the digit
`5` with no word boundary and the quantifier cannot go below two) and
instead masks the local part of `cd5h@x.yz` to `cXXh`; that turns the
blocking digit into the letter `X`, so the second pass matches
`ab@-.cXXh` and masks `ab` to `XX`. -/
theorem C7_counterexample :
    (maskPhone (maskPhone "01111111110111111111".data) ≠
      maskPhone "01111111110111111111".data) ∧
    (maskEmail (maskEmail "ab@-.cd5h@x.yz".data) ≠
      maskEmail "ab@-.cd5h@x.yz".data) := by
  decide

/-- C7 (amended): `MaskSSN` is idempotent for every string (its
replacement keeps digits outside matches intact, preserves word-character
status at every position, and never creates a fresh
boundary-digit-boundary run); `MaskPhone` and `MaskEmail` are not
idempotent (see the counterexample); and each of the three functions
returns its input unchanged when no substring matches its pattern. -/
theorem C7_masking_idempotence :
    (∀ s : Str, maskSSN (maskSSN s) = maskSSN s) ∧
    (∀ s : Str, hasPhoneMatch s = false → maskPhone s = s) ∧
    (∀ s : Str, hasEmailMatch s = false → maskEmail s = s) ∧
    (∀ s : Str, hasSSNMatch s = false → maskSSN s = s) := by
  refine ⟨fun s => maskSSNFuel_idem_aux s.length s none (le_refl _),
    maskPhone_of_no_match, ?_, ?_⟩
  · intro s h
    exact maskEmailFuel_no_match s none h
  · intro s h
    exact maskSSNFuel_no_match s none h

theorem C7_masking_idempotence_witness :
    maskPhone "hello world".data = "hello world".data ∧
    maskEmail "no emails here".data = "no emails here".data ∧
    maskSSN "only 1234 digits".data = "only 1234 digits".data :=
  ⟨C7_masking_idempotence.2.1 "hello world".data (by decide),
   C7_masking_idempotence.2.2.1 "no emails here".data (by decide),
   C7_masking_idempotence.2.2.2 "only 1234 digits".data (by decide)⟩
